import Mathlib

/-!
Verification of the vidgen render pipeline: a shallow embedding of the
duration/transition resolution, concatenation routing, xfade filter-graph
construction, encoding-preset resolution, per-format scene overrides and
progress reporting found in `src/scene.rs`, `src/config.rs`,
`src/render/encoder.rs`, `src/render/browser.rs` and `src/render/mod.rs`.
Rust `f64` values are modelled as rationals (`ℚ`), `u32`/`usize` as `ℕ`,
and `HashMap` property bags as association lists with a lookup function.
-/

namespace Vidgen

/-- Scene duration policy from `src/scene.rs`: either automatically derived
from TTS audio length plus padding, or a fixed number of seconds. -/
inductive SceneDuration where
  | auto
  | fixed (d : ℚ)
  deriving DecidableEq, Repr

/-- Embedding of `SceneDuration::resolve` (`src/scene.rs` lines 26-40):
`Auto` with TTS gives `tts_duration + padding_before + padding_after`,
`Auto` without TTS gives `fallback`, `Fixed(d)` gives `d`. -/
def SceneDuration.resolve (self : SceneDuration) (tts_duration : Option ℚ)
    (padding_before padding_after fallback : ℚ) : ℚ :=
  match self with
  | .auto =>
    match tts_duration with
    | some d => d + padding_before + padding_after
    | none => fallback
  | .fixed d => d

/-- Embedding of `Scene::total_frames_for_duration` (`src/scene.rs` lines
184-187): `ceil(effective_duration * fps)` cast to an unsigned integer. -/
def total_frames_for_duration (effective_duration : ℚ) (fps : ℕ) : ℕ :=
  (⌈effective_duration * (fps : ℚ)⌉).toNat

/-- Claim C1: for every duration policy, optional narration length, paddings
and fallback, `SceneDuration::resolve` returns: for `Auto` with narration
`Some n`, exactly `n + padding_before + padding_after`; for `Auto` with no
narration, exactly the configured fallback; for `Fixed d`, exactly `d`
regardless of narration presence or padding values. -/
theorem scene_duration_resolve_spec :
    (∀ n padding_before padding_after fallback : ℚ,
      SceneDuration.resolve .auto (some n) padding_before padding_after fallback
        = n + padding_before + padding_after) ∧
    (∀ padding_before padding_after fallback : ℚ,
      SceneDuration.resolve .auto none padding_before padding_after fallback = fallback) ∧
    (∀ d : ℚ, ∀ tts_duration : Option ℚ, ∀ padding_before padding_after fallback : ℚ,
      SceneDuration.resolve (.fixed d) tts_duration padding_before padding_after fallback = d) := by
  refine ⟨fun _ _ _ _ => rfl, fun _ _ _ => rfl, fun d tts _ _ _ => ?_⟩
  cases tts <;> rfl

/-- Claim C6: for every effective duration `d ≥ 0` and frame rate `fps`, the
total rendered frame count equals `ceil(d * fps)`; in particular
`total_frames(3.0, 30) = 90` and `total_frames(2.5, 60) = 150`. -/
theorem total_frames_spec (d : ℚ) (fps : ℕ) (h : 0 ≤ d) :
    ((total_frames_for_duration d fps : ℤ) = ⌈d * (fps : ℚ)⌉) ∧
    total_frames_for_duration 3 30 = 90 ∧
    total_frames_for_duration (5/2) 60 = 150 := by
  refine ⟨?_, ?_, ?_⟩
  case refine_2 =>
    norm_num [total_frames_for_duration]
    rfl
  case refine_3 =>
    norm_num [total_frames_for_duration]
    rfl
  have hc : (0 : ℤ) ≤ ⌈d * (fps : ℚ)⌉ := by positivity
  simpa [total_frames_for_duration] using Int.toNat_of_nonneg hc

/-- Witness for C6: the general clause evaluated at `d = 3`, `fps = 30`. -/
theorem total_frames_spec_witness :
    (0 : ℚ) ≤ 3 ∧
    (((total_frames_for_duration 3 30 : ℤ) = ⌈(3 : ℚ) * ((30 : ℕ) : ℚ)⌉) ∧
      total_frames_for_duration 3 30 = 90 ∧
      total_frames_for_duration (5/2) 60 = 150) :=
  ⟨by norm_num, total_frames_spec 3 30 (by norm_num)⟩

/-- Background override from `src/scene.rs` (`BackgroundConfig`). -/
structure BackgroundConfig where
  color : Option String
  image : Option String
  deriving DecidableEq, Repr

/-- Per-scene audio settings from `src/scene.rs` (`SceneAudioConfig`). -/
structure SceneAudioConfig where
  music : Option String
  music_volume : Option ℚ
  deriving DecidableEq, Repr

/-- Per-format override entry from `src/scene.rs` (`FormatOverride`); the
`HashMap<String, Value>` property bag is modelled as an association list over
an abstract value type `V`. -/
structure FormatOverride (V : Type) where
  props : Option (List (String × V))
  background : Option BackgroundConfig
  deriving DecidableEq, Repr

/-- Scene frontmatter from `src/scene.rs` (`SceneFrontmatter`), with property
bags as association lists over an abstract value type `V`. -/
structure SceneFrontmatter (V : Type) where
  template : String
  duration : SceneDuration
  props : List (String × V)
  background : Option BackgroundConfig
  transition_in : Option String
  transition_out : Option String
  transition_duration : Option ℚ
  voice : Option String
  audio : Option SceneAudioConfig
  format_overrides : Option (List (String × FormatOverride V))
  deriving DecidableEq, Repr

/-- A loaded scene from `src/scene.rs` (`Scene`); the filesystem path is kept
as a plain string. -/
structure Scene (V : Type) where
  frontmatter : SceneFrontmatter V
  script : String
  source_path : String
  deriving DecidableEq, Repr

/-- Supported transition types from `src/render/encoder.rs` (`TransitionType`). -/
inductive TransitionType where
  | fade
  | slideLeft
  | slideRight
  | zoom
  | wipe
  | none
  deriving DecidableEq, Repr

/-- Model of Rust's `str::to_lowercase` as used on transition names (all
recognized names are ASCII, where it lowercases character by character). -/
def to_lowercase (s : String) : String := ⟨s.data.map Char.toLower⟩

/-- Embedding of `TransitionType::from_str` (`src/render/encoder.rs` lines
27-40): lowercase the name, match the recognized spellings, and default any
unknown name to `Fade` (the code logs a warning there but stays total). -/
def TransitionType.from_str (s : String) : TransitionType :=
  let t := to_lowercase s
  if t = "fade" then .fade
  else if t = "slide-left" ∨ t = "slideleft" ∨ t = "slide_left" then .slideLeft
  else if t = "slide-right" ∨ t = "slideright" ∨ t = "slide_right" then .slideRight
  else if t = "zoom" then .zoom
  else if t = "wipe" ∨ t = "wipeleft" ∨ t = "wipe-left" then .wipe
  else if t = "none" ∨ t = "" then .none
  else .fade

/-- Embedding of `TransitionType::ffmpeg_name` (`src/render/encoder.rs` lines
43-52). -/
def TransitionType.ffmpeg_name : TransitionType → String
  | .fade => "fade"
  | .slideLeft => "slideleft"
  | .slideRight => "slideright"
  | .zoom => "smoothup"
  | .wipe => "wipeleft"
  | .none => "fade"

/-- The exact set of transition-name spellings recognized by
`TransitionType::from_str`. -/
def recognized_transition_names : List String :=
  ["fade", "slide-left", "slideleft", "slide_left",
   "slide-right", "slideright", "slide_right",
   "zoom", "wipe", "wipeleft", "wipe-left", "none", ""]

/-- A resolved transition between two adjacent scenes
(`SceneTransition` in `src/render/encoder.rs`). -/
structure SceneTransition where
  transition_type : TransitionType
  duration : ℚ
  deriving DecidableEq, Repr

/-- Serde default for `VideoConfig::default_transition_duration`
(`src/config.rs` lines 150-152): 0.5 seconds. -/
def default_transition_duration : ℚ := 1/2

/-- Video section of the project config (`src/config.rs`, `VideoConfig`),
restricted to the fields the render pipeline claims use. -/
structure VideoConfig where
  fps : ℕ
  width : ℕ
  height : ℕ
  default_transition : Option String
  default_transition_duration : ℚ
  deriving DecidableEq, Repr

/-- `Default for VideoConfig` (`src/config.rs` lines 175-187). -/
def VideoConfig.default : VideoConfig :=
  { fps := 30, width := 1920, height := 1080,
    default_transition := Option.none,
    default_transition_duration := Vidgen.default_transition_duration }

/-- Embedding of `resolve_transition` (`src/render/encoder.rs` lines 67-98):
pick the transition name by precedence out > in > config default; return
`none` if no name is set or the name parses to `TransitionType::None`;
otherwise pair the parsed type with the duration resolved by precedence
out > in > config default. -/
def resolve_transition {V : Type} (scene_out scene_in : Scene V)
    (video_config : VideoConfig) : Option SceneTransition :=
  let transition_name :=
    (scene_out.frontmatter.transition_out.or
      scene_in.frontmatter.transition_in).or video_config.default_transition
  match transition_name with
  | Option.none => Option.none
  | some name =>
    let transition_type := TransitionType.from_str name
    if transition_type = TransitionType.none then Option.none
    else
      let duration :=
        (scene_out.frontmatter.transition_duration.or
          scene_in.frontmatter.transition_duration).getD
          video_config.default_transition_duration
      some { transition_type := transition_type, duration := duration }

/-- Claim C8: every transition-name string whose lowercase form is not one of
the recognized spellings still parses: `TransitionType::from_str` returns the
default blend style `Fade` (it logs a warning instead of failing), so
transition resolution with an unknown name yields a usable transition. -/
theorem transition_from_str_unknown_fade (s : String)
    (h : to_lowercase s ∉ recognized_transition_names) :
    TransitionType.from_str s = .fade := by
  simp only [recognized_transition_names, List.mem_cons, List.not_mem_nil, or_false,
    not_or] at h
  obtain ⟨h1, h2, h3, h4, h5, h6, h7, h8, h9, h10, h11, h12, h13⟩ := h
  simp [TransitionType.from_str, h1, h2, h3, h4, h5, h6, h7, h8, h9, h10, h11, h12, h13]

/-- Witness for C8: the unknown name "whoosh" parses to `Fade`. -/
theorem transition_from_str_unknown_fade_witness :
    to_lowercase "whoosh" ∉ recognized_transition_names ∧
      TransitionType.from_str "whoosh" = .fade :=
  ⟨by decide, transition_from_str_unknown_fade "whoosh" (by decide)⟩

/-- Claim C2: for every pair of adjacent scenes and project config,
`resolve_transition` selects the transition name by precedence
`transition_out` > `transition_in` > project default (the `Option.or` chain
below); it returns `none` when no position is populated, an explicit
"none"/empty string at the first populated position yields `none` even when a
project default exists, and otherwise the duration is the outgoing scene's
`transition_duration`, else the incoming scene's, else the project default
(0.5 s when unconfigured). -/
theorem resolve_transition_spec {V : Type} (scene_out scene_in : Scene V)
    (video_config : VideoConfig) :
    (scene_out.frontmatter.transition_out = Option.none →
      scene_in.frontmatter.transition_in = Option.none →
      video_config.default_transition = Option.none →
      resolve_transition scene_out scene_in video_config = Option.none) ∧
    (∀ name,
      (scene_out.frontmatter.transition_out.or
        scene_in.frontmatter.transition_in).or video_config.default_transition
          = some name →
      TransitionType.from_str name = TransitionType.none →
      resolve_transition scene_out scene_in video_config = Option.none) ∧
    (∀ name,
      (scene_out.frontmatter.transition_out.or
        scene_in.frontmatter.transition_in).or video_config.default_transition
          = some name →
      TransitionType.from_str name ≠ TransitionType.none →
      resolve_transition scene_out scene_in video_config =
        some { transition_type := TransitionType.from_str name,
               duration := (scene_out.frontmatter.transition_duration.or
                 scene_in.frontmatter.transition_duration).getD
                   video_config.default_transition_duration }) ∧
    VideoConfig.default.default_transition_duration = 1/2 := by
  refine ⟨?_, ?_, ?_, rfl⟩
  · intro h1 h2 h3
    simp [resolve_transition, h1, h2, h3, Option.or]
  · intro name hname htype
    simp [resolve_transition, hname, htype]
  · intro name hname htype
    simp [resolve_transition, hname, htype]

/-- Witness for C2: an outgoing scene saying `transition_out = "none"`
disables the transition even though the project default is "fade". -/
theorem resolve_transition_spec_witness :
    let scene_out : Scene ℕ :=
      { frontmatter :=
          { template := "title-card", duration := .auto, props := [],
            background := Option.none, transition_in := Option.none,
            transition_out := some "none", transition_duration := Option.none,
            voice := Option.none, audio := Option.none,
            format_overrides := Option.none },
        script := "A", source_path := "a.md" }
    let scene_in : Scene ℕ :=
      { frontmatter :=
          { template := "title-card", duration := .auto, props := [],
            background := Option.none, transition_in := Option.none,
            transition_out := Option.none, transition_duration := Option.none,
            voice := Option.none, audio := Option.none,
            format_overrides := Option.none },
        script := "B", source_path := "b.md" }
    let cfg : VideoConfig :=
      { VideoConfig.default with default_transition := some "fade" }
    ((scene_out.frontmatter.transition_out.or
        scene_in.frontmatter.transition_in).or cfg.default_transition
          = some "none") ∧
    TransitionType.from_str "none" = TransitionType.none ∧
    resolve_transition scene_out scene_in cfg = Option.none := by
  refine ⟨rfl, by decide, ?_⟩
  exact (resolve_transition_spec _ _ _).2.1 "none" rfl (by decide)

/-- Quality settings mapped from a quality name (`QualityPreset` in
`src/config.rs`). -/
structure QualityPreset where
  crf : ℕ
  preset : String
  deriving DecidableEq, Repr

/-- Embedding of `QualityPreset::from_name` (`src/config.rs` lines 232-247). -/
def QualityPreset.from_name (name : String) : QualityPreset :=
  if name = "draft" then { crf := 28, preset := "ultrafast" }
  else if name = "high" then { crf := 18, preset := "slow" }
  else { crf := 23, preset := "medium" }

/-- Full encoding parameters including audio settings (`PlatformPreset` in
`src/config.rs`). -/
structure PlatformPreset where
  crf : ℕ
  preset : String
  audio_bitrate : String
  audio_samplerate : ℕ
  deriving DecidableEq, Repr

/-- Embedding of `PlatformPreset::from_name` (`src/config.rs` lines 259-305). -/
def PlatformPreset.from_name (name : String) : Option PlatformPreset :=
  if name = "youtube-hd" then
    some { crf := 18, preset := "slow", audio_bitrate := "384k", audio_samplerate := 48000 }
  else if name = "youtube-4k" then
    some { crf := 18, preset := "medium", audio_bitrate := "384k", audio_samplerate := 48000 }
  else if name = "instagram-reels" then
    some { crf := 20, preset := "medium", audio_bitrate := "128k", audio_samplerate := 44100 }
  else if name = "tiktok" then
    some { crf := 20, preset := "medium", audio_bitrate := "128k", audio_samplerate := 44100 }
  else if name = "whatsapp" then
    some { crf := 26, preset := "fast", audio_bitrate := "96k", audio_samplerate := 44100 }
  else if name = "youtube-shorts" then
    some { crf := 20, preset := "medium", audio_bitrate := "256k", audio_samplerate := 48000 }
  else if name = "twitter" then
    some { crf := 22, preset := "medium", audio_bitrate := "128k", audio_samplerate := 44100 }
  else Option.none

/-- Embedding of `PlatformPreset::from_quality` (`src/config.rs` lines
307-315). -/
def PlatformPreset.from_quality (quality : QualityPreset) : PlatformPreset :=
  { crf := quality.crf, preset := quality.preset,
    audio_bitrate := "128k", audio_samplerate := 44100 }

/-- Embedding of `resolve_encoding` (`src/config.rs` lines 319-329): a known
platform keeps its audio settings and speed preset but shifts its CRF by the
quality's offset from the "standard" baseline (CRF 23), clamped below at 1
(the `i32` arithmetic and the `as u32` cast are modelled over `ℤ` with
`Int.toNat`; `⊔` is `max`); no platform, or an unknown one, falls back to
`PlatformPreset::from_quality`. -/
def resolve_encoding (quality : QualityPreset) (platform : Option String) :
    PlatformPreset :=
  match platform.bind PlatformPreset.from_name with
  | some p =>
    { p with crf := (((p.crf : ℤ) + ((quality.crf : ℤ) - 23)) ⊔ 1).toNat }
  | Option.none => PlatformPreset.from_quality quality

/-- Claim C9: for every quality preset `q` and known platform name `p`,
`resolve_encoding q (some p)` keeps the platform's speed preset, audio
bitrate and sample rate and shifts the platform CRF by the quality's offset
from the "standard" baseline, `crf = max 1 (platform_crf + (q.crf - 23))`;
with no platform or an unknown platform name it returns `q`'s own CRF and
speed preset with audio "128k" at 44100 Hz. -/
theorem resolve_encoding_spec (q : QualityPreset) :
    (∀ p pp, PlatformPreset.from_name p = some pp →
      resolve_encoding q (some p) =
        { crf := (((pp.crf : ℤ) + ((q.crf : ℤ) - 23)) ⊔ 1).toNat,
          preset := pp.preset, audio_bitrate := pp.audio_bitrate,
          audio_samplerate := pp.audio_samplerate }) ∧
    (resolve_encoding q Option.none =
      { crf := q.crf, preset := q.preset,
        audio_bitrate := "128k", audio_samplerate := 44100 }) ∧
    (∀ p, PlatformPreset.from_name p = Option.none →
      resolve_encoding q (some p) =
        { crf := q.crf, preset := q.preset,
          audio_bitrate := "128k", audio_samplerate := 44100 }) := by
  refine ⟨?_, rfl, ?_⟩
  · intro p pp hp
    simp [resolve_encoding, hp]
  · intro p hp
    simp [resolve_encoding, hp, PlatformPreset.from_quality]

/-- Witness for C9: draft quality (CRF 28) on "youtube-hd" (CRF 18) gives
CRF 23 with the platform's audio settings kept. -/
theorem resolve_encoding_spec_witness :
    PlatformPreset.from_name "youtube-hd" =
      some { crf := 18, preset := "slow", audio_bitrate := "384k",
             audio_samplerate := 48000 } ∧
    resolve_encoding (QualityPreset.from_name "draft") (some "youtube-hd") =
      { crf := ((((18 : ℕ) : ℤ) + (((QualityPreset.from_name "draft").crf : ℤ) - 23)) ⊔ 1).toNat,
        preset := "slow", audio_bitrate := "384k", audio_samplerate := 48000 } :=
  ⟨by decide,
   (resolve_encoding_spec (QualityPreset.from_name "draft")).1 "youtube-hd"
     { crf := 18, preset := "slow", audio_bitrate := "384k",
       audio_samplerate := 48000 } (by decide)⟩

/-- The three execution paths of `concat_scenes_with_transitions`
(`src/render/encoder.rs` lines 359-380): copy the single scene file
byte-for-byte (`std::fs::copy`), fast stream-copy concatenation via
`concat_scenes` (concat demuxer with `-c copy`, no re-encode), or the
re-encoding xfade filter-graph invocation. -/
inductive ConcatRoute where
  | copy_single
  | fast_concat
  | filter_graph
  deriving DecidableEq, Repr

/-- Embedding of the routing logic at the top of
`concat_scenes_with_transitions` (`src/render/encoder.rs` lines 359-380):
one scene file → copy; otherwise no `Some` transition → fast concat;
otherwise build the filter graph. -/
def concat_route (scene_files : List String)
    (transitions : List (Option SceneTransition)) : ConcatRoute :=
  if scene_files.length = 1 then .copy_single
  else if ¬ transitions.any (fun t => t.isSome) then .fast_concat
  else .filter_graph

/-- Claim C4: `concat_scenes_with_transitions` routes by input shape — exactly
one scene file is copied byte-for-byte to the output; multiple files with
every transition entry `None` take the fast stream-copy concatenation and
never the re-encoding filter graph; the filter-graph path is taken exactly
when the file count differs from one and at least one transition entry is
`Some`. -/
theorem concat_route_spec (scene_files : List String)
    (transitions : List (Option SceneTransition)) :
    (scene_files.length = 1 →
      concat_route scene_files transitions = .copy_single) ∧
    (2 ≤ scene_files.length → (∀ t ∈ transitions, t = Option.none) →
      concat_route scene_files transitions = .fast_concat) ∧
    (concat_route scene_files transitions = .filter_graph ↔
      scene_files.length ≠ 1 ∧ ∃ t ∈ transitions, t.isSome) := by
  refine ⟨?_, ?_, ?_⟩
  · intro h
    simp [concat_route, h]
  · intro h2 hnone
    have hne : scene_files.length ≠ 1 := by omega
    have hany : ¬ transitions.any (fun t => t.isSome) := by
      simp only [List.any_eq_true, not_exists]
      intro t
      rintro ⟨ht, hsome⟩
      rw [hnone t ht] at hsome
      simp at hsome
    simp [concat_route, hne, hany]
  · constructor
    · intro h
      by_cases h1 : scene_files.length = 1
      · simp [concat_route, h1] at h
      · by_cases h2 : transitions.any (fun t => t.isSome)
        · refine ⟨h1, ?_⟩
          simpa using h2
        · simp [concat_route, h1, h2] at h
    · rintro ⟨h1, t, ht, hsome⟩
      have h2 : transitions.any (fun t => t.isSome) := by
        simp only [List.any_eq_true]
        exact ⟨t, ht, hsome⟩
      simp [concat_route, h1, h2]

/-- Witness for C4: two scene files with no transitions take the fast
stream-copy path. -/
theorem concat_route_spec_witness :
    2 ≤ (["a.mp4", "b.mp4"] : List String).length ∧
    (∀ t ∈ ([Option.none] : List (Option SceneTransition)), t = Option.none) ∧
    concat_route ["a.mp4", "b.mp4"] [Option.none] = .fast_concat :=
  ⟨by decide, by simp,
   (concat_route_spec ["a.mp4", "b.mp4"] [Option.none]).2.1 (by decide) (by simp)⟩

/-- One emitted `xfade` filter entry
(`src/render/encoder.rs` lines 418-420): the FFmpeg transition name, the
blend duration and the start offset written into the filter graph. -/
structure XfadeEntry where
  transition : String
  duration : ℚ
  offset : ℚ
  deriving DecidableEq, Repr

/-- The `(trans_name, trans_dur)` pair picked per boundary
(`src/render/encoder.rs` lines 393-396): a resolved transition contributes
its FFmpeg name and duration, a `None` boundary becomes a "fade" of duration
0.001 (an instant cut). -/
def trans_cut : Option SceneTransition → String × ℚ
  | some t => (t.transition_type.ffmpeg_name, t.duration)
  | Option.none => ("fade", 1/1000)

/-- The offset-accumulating loop of `concat_scenes_with_transitions`
(`src/render/encoder.rs` lines 391-421) over the per-boundary pairs of
(scene duration, resolved transition): the running `offset` adds
`scene_durations[i] - trans_dur` each step and the emitted entry clamps it
at 0 (`offset.max(0.0)`) without clamping the accumulator itself. -/
def xfade_build : List (ℚ × Option SceneTransition) → ℚ → List XfadeEntry
  | [], _ => []
  | (d, t) :: rest, offset0 =>
    let cut := trans_cut t
    let offset := offset0 + d - cut.2
    { transition := cut.1, duration := cut.2, offset := max offset 0 }
      :: xfade_build rest offset

/-- The xfade entries emitted for `n` scene files: the loop runs over
boundaries `0 ≤ i < n - 1`, reading `scene_durations[i]` and
`transitions[i]`, starting from offset 0. -/
def xfade_entries (scene_durations : List ℚ)
    (transitions : List (Option SceneTransition)) : List XfadeEntry :=
  xfade_build (scene_durations.zip transitions) 0

theorem xfade_build_length (l : List (ℚ × Option SceneTransition)) (acc : ℚ) :
    (xfade_build l acc).length = l.length := by
  induction l generalizing acc with
  | nil => rfl
  | cons p rest ih =>
    obtain ⟨d, t⟩ := p
    simp [xfade_build, ih]

theorem zip_get_some {α β : Type} {xs : List α} {ys : List β} {i : ℕ} {x : α} {y : β}
    (hx : xs.get? i = some x) (hy : ys.get? i = some y) :
    (xs.zip ys).get? i = some (x, y) := by
  induction xs generalizing ys i with
  | nil => simp at hx
  | cons a xs ih =>
    cases ys with
    | nil => simp at hy
    | cons b ys =>
      cases i with
      | zero =>
        simp at hx hy
        simp [List.zip_cons_cons, hx, hy]
      | succ j =>
        simp only [List.get?_cons_succ] at hx hy
        simpa [List.zip_cons_cons] using ih hx hy

theorem take_zip_eq {α β : Type} (xs : List α) (ys : List β) (n : ℕ) :
    (xs.zip ys).take n = (xs.take n).zip (ys.take n) := by
  induction xs generalizing ys n with
  | nil => simp
  | cons a xs ih =>
    cases ys with
    | nil => simp
    | cons b ys =>
      cases n with
      | zero => simp
      | succ m => simp [List.zip_cons_cons, ih]

theorem sum_zip_map_sub (xs : List ℚ) (ys : List (Option SceneTransition))
    (h : xs.length = ys.length) :
    ((xs.zip ys).map (fun q => q.1 - (trans_cut q.2).2)).sum
      = xs.sum - ((ys.map (fun t => (trans_cut t).2)).sum) := by
  induction xs generalizing ys with
  | nil =>
    cases ys with
    | nil => simp
    | cons b ys => simp at h
  | cons a xs ih =>
    cases ys with
    | nil => simp at h
    | cons b ys =>
      simp only [List.length_cons, Nat.succ_inj] at h
      simp only [List.zip_cons_cons, List.map_cons, List.sum_cons, ih ys h]
      ring

theorem xfade_build_get (l : List (ℚ × Option SceneTransition)) :
    ∀ (acc : ℚ) (i : ℕ) (p : ℚ × Option SceneTransition), l.get? i = some p →
    (xfade_build l acc).get? i = some
      { transition := (trans_cut p.2).1,
        duration := (trans_cut p.2).2,
        offset := max (acc + ((l.take (i + 1)).map
          (fun q => q.1 - (trans_cut q.2).2)).sum) 0 } := by
  induction l with
  | nil => intro acc i p hp; simp at hp
  | cons hd rest ih =>
    intro acc i p hp
    obtain ⟨d, t⟩ := hd
    cases i with
    | zero =>
      simp only [List.get?_cons_zero, Option.some_inj] at hp
      subst hp
      simp only [xfade_build, List.get?_cons_zero, Option.some_inj,
        List.take_succ_cons, List.take_zero, List.map_cons, List.map_nil,
        List.sum_cons, List.sum_nil]
      congr 2
      ring
    | succ j =>
      simp only [List.get?_cons_succ] at hp
      have := ih (acc + d - (trans_cut t).2) j p hp
      simp only [xfade_build, List.get?_cons_succ]
      rw [this]
      simp only [List.take_succ_cons, List.map_cons, List.sum_cons]
      congr 2
      congr 1
      ring

/-- Claim C5: in the cross-fade filter graph over `n` scene files (with the
`n - 1` resolved boundary transitions), every boundary `i` produces exactly
one xfade entry whose transition name and duration come from the resolved
transition (`None` becomes a fade of duration 0.001, an instant cut), and
whose offset is the sum of the durations of scenes `0..=i` minus the sum of
the transition durations of boundaries `0..=i`, clamped to be nonnegative. -/
theorem xfade_entries_spec (scene_durations : List ℚ)
    (transitions : List (Option SceneTransition))
    (hlen : scene_durations.length = transitions.length + 1) :
    (xfade_entries scene_durations transitions).length = transitions.length ∧
    ∀ i t, transitions.get? i = some t →
      (xfade_entries scene_durations transitions).get? i = some
        { transition := (trans_cut t).1,
          duration := (trans_cut t).2,
          offset := max ((scene_durations.take (i + 1)).sum
            - ((transitions.take (i + 1)).map (fun t2 => (trans_cut t2).2)).sum) 0 } := by
  constructor
  · rw [xfade_entries, xfade_build_length, List.length_zip, hlen]
    omega
  · intro i t ht
    have hil : i < transitions.length := by
      by_contra hcon
      rw [List.get?_eq_none.2 (by omega)] at ht
      exact Option.noConfusion ht
    have hid : i < scene_durations.length := by omega
    have hd : scene_durations.get? i = some (scene_durations.get ⟨i, hid⟩) :=
      List.get?_eq_get hid
    have hz := zip_get_some hd ht
    have := xfade_build_get (scene_durations.zip transitions) 0 i _ hz
    rw [xfade_entries, this]
    congr 2
    rw [take_zip_eq, sum_zip_map_sub, zero_add]
    · simp [List.length_take]
      omega

/-- Witness for C5: two scenes of 3 s and 4 s with a single resolved 0.5 s
fade boundary yield one entry, with offset `3 - 0.5 = 2.5`. -/
theorem xfade_entries_spec_witness :
    ([(3 : ℚ), 4] : List ℚ).length
        = ([some { transition_type := .fade, duration := 1/2 }]
            : List (Option SceneTransition)).length + 1 ∧
    ([some { transition_type := .fade, duration := 1/2 }]
        : List (Option SceneTransition)).get? 0
      = some (some { transition_type := .fade, duration := 1/2 }) ∧
    (xfade_entries [(3 : ℚ), 4]
        [some { transition_type := .fade, duration := 1/2 }]).get? 0 = some
      { transition := (trans_cut (some { transition_type := .fade, duration := 1/2 })).1,
        duration := (trans_cut (some { transition_type := .fade, duration := 1/2 })).2,
        offset := max ((([(3 : ℚ), 4]).take 1).sum
          - ((([some { transition_type := .fade, duration := 1/2 }]
              : List (Option SceneTransition)).take 1).map
                (fun t2 => (trans_cut t2).2)).sum) 0 } :=
  ⟨by decide, rfl,
   (xfade_entries_spec [(3 : ℚ), 4]
     [some { transition_type := .fade, duration := 1/2 }] (by decide)).2 0 _ rfl⟩

/-- The narration window boundaries computed once per animated capture
(`src/render/browser.rs` lines 196-198): `content_start_frame` is
`audio_delay_secs * fps` and `content_end_frame` is
`(effective_duration - content_padding_after) * fps`. -/
def content_window (audio_delay_secs effective_duration content_padding_after : ℚ)
    (fps : ℕ) : ℚ × ℚ :=
  (audio_delay_secs * (fps : ℚ),
   (effective_duration - content_padding_after) * (fps : ℚ))

/-- Embedding of the per-frame content-progress computation
(`src/render/browser.rs` lines 221-226): when the window range is positive,
`((frame - content_start_frame) / content_range).clamp(0.0, 1.0)`;
otherwise the raw `frame / total_frames` fallback. -/
def content_progress (frame total_frames : ℕ)
    (content_start_frame content_end_frame : ℚ) : ℚ :=
  let content_range := content_end_frame - content_start_frame
  if 0 < content_range then
    min (max (((frame : ℚ) - content_start_frame) / content_range) 0) 1
  else
    (frame : ℚ) / (total_frames : ℚ)

/-- Claim C7: for every frame index `frame < total_frames` of an animated
scene capture, the content-progress signal pushed to the rendering surface is
a well-defined value in `[0, 1]`: with a positive narration window it is the
clamped windowed ratio, and with a zero-or-negative window it falls back to
`frame / total_frames` instead of dividing by the non-positive range. -/
theorem content_progress_bounds (frame total_frames : ℕ)
    (content_start_frame content_end_frame : ℚ)
    (h : frame < total_frames) :
    0 ≤ content_progress frame total_frames content_start_frame content_end_frame ∧
    content_progress frame total_frames content_start_frame content_end_frame ≤ 1 := by
  unfold content_progress
  by_cases hr : 0 < content_end_frame - content_start_frame
  · rw [if_pos hr]
    exact ⟨le_min (le_max_right _ _) zero_le_one, min_le_right _ _⟩
  · rw [if_neg hr]
    have htpos : (0 : ℚ) < (total_frames : ℚ) := by
      have : 0 < total_frames := by omega
      exact_mod_cast this
    constructor
    · positivity
    · rw [div_le_one htpos]
      exact_mod_cast Nat.le_of_lt h

/-- Witness for C7: a degenerate window (`start = end = 0`) on frame 1 of 3
falls back to `1 / 3`, inside `[0, 1]`. -/
theorem content_progress_bounds_witness :
    1 < 3 ∧
    (0 ≤ content_progress 1 3 0 0 ∧ content_progress 1 3 0 0 ≤ 1) :=
  ⟨by decide, content_progress_bounds 1 3 0 0 (by decide)⟩

/-- Lookup in the association-list model of a Rust `HashMap`
(`HashMap::get`): the value bound to `k`, if any. -/
def hashmap_get {V : Type} : List (String × V) → String → Option V
  | [], _ => Option.none
  | (k2, v) :: rest, k => if k2 = k then some v else hashmap_get rest k

/-- Insert-or-overwrite in the association-list model of a Rust `HashMap`
(`HashMap::insert`): replaces an existing binding of `k` in place, otherwise
appends. -/
def hashmap_insert {V : Type} : List (String × V) → String → V → List (String × V)
  | [], k, v => [(k, v)]
  | (k2, v2) :: rest, k, v =>
    if k2 = k then (k, v) :: rest else (k2, v2) :: hashmap_insert rest k v

/-- Embedding of `apply_format_overrides` (`src/render/mod.rs` lines 68-141):
look up the scene's `format_overrides` entry for the format name; without one,
rebuild the scene field by field (a clone); with one, merge the override
props over the scene's props (`HashMap::insert` per key) and take the
override background, falling back to the scene's; all other fields are
copied unchanged. -/
def apply_format_overrides {V : Type} (scene : Scene V) (fmt_name : String) :
    Scene V :=
  let overrides := scene.frontmatter.format_overrides.bind
    (fun fo => hashmap_get fo fmt_name)
  match overrides with
  | Option.none =>
    { frontmatter :=
        { template := scene.frontmatter.template,
          duration := scene.frontmatter.duration,
          props := scene.frontmatter.props,
          background := scene.frontmatter.background,
          transition_in := scene.frontmatter.transition_in,
          transition_out := scene.frontmatter.transition_out,
          transition_duration := scene.frontmatter.transition_duration,
          voice := scene.frontmatter.voice,
          audio := scene.frontmatter.audio,
          format_overrides := scene.frontmatter.format_overrides },
      script := scene.script,
      source_path := scene.source_path }
  | some fo =>
    let props :=
      match fo.props with
      | some override_props =>
        override_props.foldl (fun m kv => hashmap_insert m kv.1 kv.2)
          scene.frontmatter.props
      | Option.none => scene.frontmatter.props
    let background := fo.background.or scene.frontmatter.background
    { frontmatter :=
        { template := scene.frontmatter.template,
          duration := scene.frontmatter.duration,
          props := props,
          background := background,
          transition_in := scene.frontmatter.transition_in,
          transition_out := scene.frontmatter.transition_out,
          transition_duration := scene.frontmatter.transition_duration,
          voice := scene.frontmatter.voice,
          audio := scene.frontmatter.audio,
          format_overrides := scene.frontmatter.format_overrides },
      script := scene.script,
      source_path := scene.source_path }

theorem hashmap_get_insert_self {V : Type} (m : List (String × V)) (k : String) (v : V) :
    hashmap_get (hashmap_insert m k v) k = some v := by
  induction m with
  | nil => simp [hashmap_insert, hashmap_get]
  | cons kv rest ih =>
    obtain ⟨k2, v2⟩ := kv
    by_cases hk : k2 = k
    · simp [hashmap_insert, hashmap_get, hk]
    · simp [hashmap_insert, hashmap_get, hk, ih]

theorem hashmap_get_insert_ne {V : Type} (m : List (String × V)) (k k2 : String) (v : V)
    (h : k ≠ k2) : hashmap_get (hashmap_insert m k v) k2 = hashmap_get m k2 := by
  induction m with
  | nil => simp [hashmap_insert, hashmap_get, h]
  | cons kv rest ih =>
    obtain ⟨k3, v3⟩ := kv
    by_cases hk : k3 = k
    · subst hk
      simp [hashmap_insert, hashmap_get, h]
    · simp only [hashmap_insert, if_neg hk, hashmap_get]
      by_cases hk2 : k3 = k2 <;> simp [hk2, ih]

theorem hashmap_get_eq_none_of_not_mem {V : Type} (m : List (String × V)) (k : String)
    (h : k ∉ m.map Prod.fst) : hashmap_get m k = Option.none := by
  induction m with
  | nil => rfl
  | cons kv rest ih =>
    obtain ⟨k2, v2⟩ := kv
    simp only [List.map_cons, List.mem_cons, not_or] at h
    have : k2 ≠ k := fun hc => h.1 hc.symm
    simp [hashmap_get, this, ih h.2]

theorem hashmap_get_foldl_insert {V : Type} (ov : List (String × V)) :
    ∀ (base : List (String × V)) (k : String), (ov.map Prod.fst).Nodup →
    hashmap_get (ov.foldl (fun m kv => hashmap_insert m kv.1 kv.2) base) k
      = (hashmap_get ov k).or (hashmap_get base k) := by
  induction ov with
  | nil => intro base k _; simp [hashmap_get, Option.or]
  | cons kv rest ih =>
    intro base k hnod
    obtain ⟨k2, v2⟩ := kv
    simp only [List.map_cons, List.nodup_cons] at hnod
    simp only [List.foldl_cons]
    rw [ih _ k hnod.2]
    by_cases hk : k2 = k
    · subst hk
      rw [hashmap_get_eq_none_of_not_mem rest k2 hnod.1]
      simp [hashmap_get, Option.or, hashmap_get_insert_self]
    · rw [hashmap_get_insert_ne _ _ _ _ hk]
      simp [hashmap_get, hk]

/-- The lookup behaviour claimed for the merged property bag: an override
binding wins, otherwise the original scene's binding is kept. -/
def merged_lookup {V : Type} (fo : FormatOverride V) (base : List (String × V))
    (k : String) : Option V :=
  match fo.props with
  | some op => (hashmap_get op k).or (hashmap_get base k)
  | Option.none => hashmap_get base k

theorem apply_format_overrides_eq_some {V : Type} (scene : Scene V) (fmt_name : String)
    (fo : FormatOverride V)
    (hsome : scene.frontmatter.format_overrides.bind (fun o => hashmap_get o fmt_name)
      = some fo) :
    apply_format_overrides scene fmt_name =
      { frontmatter :=
          { template := scene.frontmatter.template,
            duration := scene.frontmatter.duration,
            props :=
              match fo.props with
              | some override_props =>
                override_props.foldl (fun m kv => hashmap_insert m kv.1 kv.2)
                  scene.frontmatter.props
              | Option.none => scene.frontmatter.props,
            background := fo.background.or scene.frontmatter.background,
            transition_in := scene.frontmatter.transition_in,
            transition_out := scene.frontmatter.transition_out,
            transition_duration := scene.frontmatter.transition_duration,
            voice := scene.frontmatter.voice,
            audio := scene.frontmatter.audio,
            format_overrides := scene.frontmatter.format_overrides },
        script := scene.script,
        source_path := scene.source_path } := by
  unfold apply_format_overrides
  rw [hsome]

/-- Claim C10: `apply_format_overrides` returns a derived scene whose props
bind each key to the format override's value when the override defines it and
to the original scene's value otherwise, whose background is the override's
when present and the original's otherwise, and whose every other field
(template, duration, transitions, voice, audio, format_overrides, script,
source path) equals the original's; when no override entry exists for the
format name the derived scene equals the original. The original scene value
is never touched (the function is pure and total on the embedded state). -/
theorem apply_format_overrides_spec {V : Type} (scene : Scene V) (fmt_name : String)
    (hnod : ∀ fo op,
      scene.frontmatter.format_overrides.bind (fun o => hashmap_get o fmt_name) = some fo →
      fo.props = some op → (op.map Prod.fst).Nodup) :
    (let derived := apply_format_overrides scene fmt_name
     derived.frontmatter.template = scene.frontmatter.template ∧
     derived.frontmatter.duration = scene.frontmatter.duration ∧
     derived.frontmatter.transition_in = scene.frontmatter.transition_in ∧
     derived.frontmatter.transition_out = scene.frontmatter.transition_out ∧
     derived.frontmatter.transition_duration = scene.frontmatter.transition_duration ∧
     derived.frontmatter.voice = scene.frontmatter.voice ∧
     derived.frontmatter.audio = scene.frontmatter.audio ∧
     derived.frontmatter.format_overrides = scene.frontmatter.format_overrides ∧
     derived.script = scene.script ∧
     derived.source_path = scene.source_path) ∧
    (scene.frontmatter.format_overrides.bind (fun o => hashmap_get o fmt_name)
        = Option.none →
      apply_format_overrides scene fmt_name = scene) ∧
    (∀ fo,
      scene.frontmatter.format_overrides.bind (fun o => hashmap_get o fmt_name)
          = some fo →
      (apply_format_overrides scene fmt_name).frontmatter.background
          = fo.background.or scene.frontmatter.background ∧
      ∀ k, hashmap_get (apply_format_overrides scene fmt_name).frontmatter.props k
          = merged_lookup fo scene.frontmatter.props k) := by
  refine ⟨?_, ?_, ?_⟩
  · unfold apply_format_overrides
    cases scene.frontmatter.format_overrides.bind (fun o => hashmap_get o fmt_name) with
    | none => exact ⟨rfl, rfl, rfl, rfl, rfl, rfl, rfl, rfl, rfl, rfl⟩
    | some fo => exact ⟨rfl, rfl, rfl, rfl, rfl, rfl, rfl, rfl, rfl, rfl⟩
  · intro hnone
    unfold apply_format_overrides
    rw [hnone]
  · intro fo hsome
    have heq := apply_format_overrides_eq_some scene fmt_name fo hsome
    constructor
    · rw [heq]
    · intro k
      rw [heq]
      cases hp : fo.props with
      | none => simp [merged_lookup, hp]
      | some op =>
        simp only [merged_lookup, hp]
        exact hashmap_get_foldl_insert op scene.frontmatter.props k (hnod fo op hsome hp)

/-- Witness for C10: a scene with a "portrait" override replacing the title
prop; the merged props bind "title" to the override value and "body" to the
original. -/
theorem apply_format_overrides_spec_witness :
    (let scene : Scene String :=
      { frontmatter :=
          { template := "title-card", duration := .auto,
            props := [("title", "Default"), ("body", "Text")],
            background := Option.none, transition_in := Option.none,
            transition_out := Option.none, transition_duration := Option.none,
            voice := Option.none, audio := Option.none,
            format_overrides := some [("portrait",
              { props := some [("title", "Portrait")],
                background := Option.none })] },
        script := "S", source_path := "s.md" }
     (∀ fo op,
        scene.frontmatter.format_overrides.bind (fun o => hashmap_get o "portrait")
          = some fo →
        fo.props = some op → (op.map Prod.fst).Nodup) ∧
     (∀ fo,
        scene.frontmatter.format_overrides.bind (fun o => hashmap_get o "portrait")
            = some fo →
        (apply_format_overrides scene "portrait").frontmatter.background
            = fo.background.or scene.frontmatter.background ∧
        ∀ k, hashmap_get (apply_format_overrides scene "portrait").frontmatter.props k
            = merged_lookup fo scene.frontmatter.props k)) := by
  intro scene
  have hn : ∀ (fo : FormatOverride String) (op : List (String × String)),
      scene.frontmatter.format_overrides.bind (fun o => hashmap_get o "portrait")
        = some fo →
      fo.props = some op → (op.map Prod.fst).Nodup := by
    intro fo op hfo hop
    have h1 : some ({ props := some [("title", "Portrait")], background := Option.none } : FormatOverride String) = some fo := hfo
    obtain rfl := Option.some_inj.mp h1
    have h2 : some ([("title", "Portrait")] : List (String × String)) = some op := hop
    obtain rfl := Option.some_inj.mp h2
    decide
  exact ⟨hn, (apply_format_overrides_spec scene "portrait" hn).2.2⟩

/-- The per-format step budget of `render_project`
(`src/render/mod.rs` line 319): `scenes.len() * 2 + 1`. -/
def steps_per_format (scenes : ℕ) : ℕ := scenes * 2 + 1

/-- The fixed progress denominator of `render_project`
(`src/render/mod.rs` line 320): `scenes + total_formats * steps_per_format`. -/
def total_steps (scenes total_formats : ℕ) : ℕ :=
  scenes + total_formats * steps_per_format scenes

/-- The `done` values of the per-scene capture reports inside one format
(`src/render/mod.rs` lines 438-447): `scenes + fmt_idx * steps_per_format
+ i + 1` for scene index `i`. The collection loop iterates completion order
of the bounded-parallel captures; this models the in-order sequentialization
(scene `i` finishing `i`-th), which is the deterministic schedule of the
embedded semantics. -/
def scene_capture_reports (scenes fmt_idx : ℕ) : List ℕ :=
  (List.range scenes).map
    (fun i => scenes + (fmt_idx * steps_per_format scenes + i + 1))

/-- All `done` values reported while rendering one format: the per-scene
capture reports followed by the "format complete" report
(`src/render/mod.rs` lines 553-561): `scenes + (fmt_idx + 1) *
steps_per_format`. -/
def format_reports (scenes fmt_idx : ℕ) : List ℕ :=
  scene_capture_reports scenes fmt_idx
    ++ [scenes + (fmt_idx + 1) * steps_per_format scenes]

/-- The concatenation of all per-format report `done` values for format
indices `0, 1, ..., total_formats - 1`. -/
def all_format_reports (scenes : ℕ) : ℕ → List ℕ
  | 0 => []
  | f + 1 => all_format_reports scenes f ++ format_reports scenes f

/-- The full sequence of `(done, total)` progress pairs reported by one run
of `render_project` (`src/render/mod.rs` lines 317-323, 438-447, 553-561 and
564-567): the "TTS synthesis complete" report at `done = scenes`, the
per-format reports, and the final "Render complete" report at
`done = total`. Every report carries the same fixed total. -/
def progress_trace (scenes total_formats : ℕ) : List (ℕ × ℕ) :=
  ((scenes :: all_format_reports scenes total_formats)
      ++ [total_steps scenes total_formats]).map
    (fun done => (done, total_steps scenes total_formats))

theorem mem_scene_capture_bounds {scenes f x : ℕ}
    (hx : x ∈ scene_capture_reports scenes f) :
    scenes + f * steps_per_format scenes < x ∧
    x ≤ scenes + (f + 1) * steps_per_format scenes := by
  simp only [scene_capture_reports, List.mem_map, List.mem_range] at hx
  obtain ⟨i, hi, rfl⟩ := hx
  have h1 : (f + 1) * steps_per_format scenes
      = f * steps_per_format scenes + steps_per_format scenes :=
    Nat.succ_mul f _
  have h2 : steps_per_format scenes = scenes * 2 + 1 := rfl
  omega

theorem mem_format_reports_bounds {scenes f x : ℕ}
    (hx : x ∈ format_reports scenes f) :
    scenes + f * steps_per_format scenes < x ∧
    x ≤ scenes + (f + 1) * steps_per_format scenes := by
  simp only [format_reports, List.mem_append, List.mem_singleton] at hx
  rcases hx with hx | rfl
  · exact mem_scene_capture_bounds hx
  · have h1 : (f + 1) * steps_per_format scenes
        = f * steps_per_format scenes + steps_per_format scenes :=
      Nat.succ_mul f _
    have h2 : steps_per_format scenes = scenes * 2 + 1 := rfl
    omega

theorem mem_all_format_reports_bounds {scenes : ℕ} :
    ∀ {F x : ℕ}, x ∈ all_format_reports scenes F →
    scenes < x ∧ x ≤ total_steps scenes F := by
  intro F
  induction F with
  | zero => intro x hx; simp [all_format_reports] at hx
  | succ F ih =>
    intro x hx
    simp only [all_format_reports, List.mem_append] at hx
    have h1 : (F + 1) * steps_per_format scenes
        = F * steps_per_format scenes + steps_per_format scenes :=
      Nat.succ_mul F _
    have h2 : steps_per_format scenes = scenes * 2 + 1 := rfl
    rcases hx with hx | hx
    · have := ih hx
      simp only [total_steps] at this ⊢
      omega
    · have := mem_format_reports_bounds hx
      simp only [total_steps]
      omega

theorem pairwise_scene_capture_reports (scenes f : ℕ) :
    (scene_capture_reports scenes f).Pairwise (· ≤ ·) :=
  (List.pairwise_lt_range scenes).map _ (fun a b hab => by omega)

theorem pairwise_format_reports (scenes f : ℕ) :
    (format_reports scenes f).Pairwise (· ≤ ·) := by
  rw [format_reports, List.pairwise_append]
  refine ⟨pairwise_scene_capture_reports scenes f, List.pairwise_singleton _ _, ?_⟩
  intro a ha b hb
  rw [List.mem_singleton] at hb
  subst hb
  exact (mem_scene_capture_bounds ha).2

theorem pairwise_all_format_reports (scenes : ℕ) :
    ∀ F, (all_format_reports scenes F).Pairwise (· ≤ ·) := by
  intro F
  induction F with
  | zero => exact List.Pairwise.nil
  | succ F ih =>
    rw [all_format_reports, List.pairwise_append]
    refine ⟨ih, pairwise_format_reports scenes F, ?_⟩
    intro a ha b hb
    have h1 := (mem_all_format_reports_bounds ha).2
    have h2 := (mem_format_reports_bounds hb).1
    simp only [total_steps] at h1
    omega

theorem progress_trace_fst (scenes total_formats : ℕ) :
    (progress_trace scenes total_formats).map Prod.fst =
      (scenes :: all_format_reports scenes total_formats)
        ++ [total_steps scenes total_formats] := by
  rw [progress_trace, List.map_map]
  simp [Function.comp_def]

/-- Claim C3 fails as stated: in a full render with 2 scenes and 2 formats,
`done == total` is reported twice (the last format's completion report and
the final "Render complete" report both carry `done = total = 12`), not
exactly once. -/
theorem progress_done_total_once_refuted :
    (((progress_trace 2 2).filter (fun p => p.1 = p.2)).length = 2) ∧
    ¬ (((progress_trace 2 2).filter (fun p => p.1 = p.2)).length = 1) := by
  decide

/-- Claim C3, amended: across a full render all reported `(done, total)`
pairs share the fixed denominator `total = scenes + total_formats *
(2 * scenes + 1)`; under in-order scene completion the successive `done`
values are non-decreasing; and `done == total` is reported exactly twice —
as the final two reports (the last format's completion report and the
closing "Render complete" report) — rather than exactly once. -/
theorem progress_trace_amended_spec (scenes total_formats : ℕ) :
    (∀ p ∈ progress_trace scenes total_formats,
      p.2 = scenes + total_formats * (2 * scenes + 1)) ∧
    List.Chain' (· ≤ ·) ((progress_trace scenes total_formats).map Prod.fst) ∧
    (∃ l, (progress_trace scenes total_formats).map Prod.fst
        = l ++ [total_steps scenes total_formats, total_steps scenes total_formats] ∧
      ∀ x ∈ l, x < total_steps scenes total_formats) := by
  refine ⟨?_, ?_, ?_⟩
  · intro p hp
    simp only [progress_trace, List.mem_map] at hp
    obtain ⟨d, _, rfl⟩ := hp
    simp only [total_steps, steps_per_format]
    ring
  · rw [progress_trace_fst]
    apply List.Pairwise.chain'
    refine List.Pairwise.cons ?_ ?_
    · intro b hb
      rw [List.append_eq, List.mem_append] at hb
      rcases hb with hb | hb
      · exact le_of_lt (mem_all_format_reports_bounds hb).1
      · rw [List.mem_singleton] at hb
        subst hb
        simp [total_steps]
    · rw [List.append_eq, List.pairwise_append]
      refine ⟨pairwise_all_format_reports scenes total_formats,
        List.pairwise_singleton _ _, ?_⟩
      intro a ha b hb
      rw [List.mem_singleton] at hb
      subst hb
      exact (mem_all_format_reports_bounds ha).2
  · rw [progress_trace_fst]
    cases total_formats with
    | zero =>
      refine ⟨[], ?_, by simp⟩
      simp [all_format_reports, total_steps]
    | succ F =>
      refine ⟨scenes :: (all_format_reports scenes F
        ++ scene_capture_reports scenes F), ?_, ?_⟩
      · have hT : scenes + (F + 1) * steps_per_format scenes
            = total_steps scenes (F + 1) := rfl
        simp [all_format_reports, format_reports, hT, List.append_assoc]
      · intro x hx
        have h1 : (F + 1) * steps_per_format scenes
            = F * steps_per_format scenes + steps_per_format scenes :=
          Nat.succ_mul F _
        have h2 : steps_per_format scenes = scenes * 2 + 1 := rfl
        simp only [List.mem_cons, List.mem_append] at hx
        rcases hx with rfl | hx | hx
        · simp only [total_steps]
          omega
        · have := (mem_all_format_reports_bounds hx).2
          simp only [total_steps] at this ⊢
          omega
        · have := (mem_scene_capture_bounds hx).1
          have h3 := (mem_scene_capture_bounds hx).2
          simp only [scene_capture_reports, List.mem_map, List.mem_range] at hx
          obtain ⟨i, hi, rfl⟩ := hx
          simp only [total_steps]
          omega

end Vidgen
